import Mathlib

/-!
Shallow embedding of the notification scheduling component of
`src/lib/notification/notificationcomponent.cpp` (Icinga 2 fork, experimental
notification scheduler).

The component keeps two collections of `NotificationScheduleInfo` entries,
`m_IdleNotifications` and `m_PendingNotifications`, guarded by one mutex, and
runs a scheduler loop (`NotificationThreadProc`) that promotes due entries from
Idle to Pending and hands them to an asynchronous dispatch
(`SendMessageHelper`).  Event ingestion (`StateChangeHandler`,
`FlappingChangedHandler`) consults the pure decision predicate
`HardStateNotificationCheck` and admits notifications into Idle.

Modelling conventions:
  * notification identities are `Nat`;
  * timestamps (C++ `double`) are `Int` — every claim in scope only compares
    and subtracts due-times, so exact integer time is faithful;
  * each handler is a pure function from the scheduler state (plus a read-only
    environment holding the external world: current time, each notification's
    next-due time and active flag) to the new scheduler state together with the
    list of `BeginExecuteNotification` calls it makes;
  * the mutex/condition-variable protocol is modelled by making each
    lock-protected region one atomic step of a transition system (`applyEvent`
    / `Reaches`); the environment may change arbitrarily between steps, which
    models external mutation of `GetNextNotification()` and the passing of
    time.
-/

namespace NotificationComponent

/-- Raw service state `ServiceOK` (enum value 0 in the source). -/
def ServiceOK : Nat := 0

/-- Soft/hard state type (`StateTypeSoft` / `StateTypeHard`). -/
inductive StateType where
  | soft
  | hard
deriving DecidableEq, BEq

/-- Notification types used by the handlers (`NotificationRecovery`,
`NotificationProblem`, `NotificationFlappingStart`, `NotificationFlappingEnd`). -/
inductive NotificationType where
  | Recovery
  | Problem
  | FlappingStart
  | FlappingEnd
deriving DecidableEq, BEq

/-- Identity of a `Notification` object. -/
abbrev NotificationId := Nat

/-- The read-only view of a `Notification` object that the component consults:
`GetNextNotification()` and `IsActive()`. -/
structure NotificationObj where
  nextNotificationTime : Int
  active : Bool
deriving DecidableEq

/-- External world read by the component: the notification objects and the
current wall-clock time `Utility::GetTime()`.  It may differ from step to step
of the transition system, since notifications recompute their next-due time
outside of this component. -/
structure Env where
  notifications : NotificationId → NotificationObj
  now : Int

/-- The fields of a `Checkable` read by `HardStateNotificationCheck` and the
ingestion handlers. -/
structure Checkable where
  reachable : Bool
  inDowntime : Bool
  acknowledged : Bool
  flapping : Bool
  volatileFlag : Bool
  stateRaw : Nat
  lastStateRaw : Nat
  lastStateType : StateType
  notifications : List NotificationId
deriving DecidableEq

/-- `NotificationScheduleInfo` from the source: a snapshot of a notification's
due-time (`Object`, `NextMessage`). -/
structure NotificationScheduleInfo where
  Object : NotificationId
  NextMessage : Int
deriving DecidableEq

/-- `NotificationComponent::GetNotificationScheduleInfo` (lines 252-258):
snapshots `notification->GetNextNotification()`. -/
def GetNotificationScheduleInfo (env : Env) (n : NotificationId) :
    NotificationScheduleInfo :=
  ⟨n, (env.notifications n).nextNotificationTime⟩

/-- `NotificationComponent::HardStateNotificationCheck` (lines 190-232),
translated statement by statement: the early-exit guard, then the sequential
assignments to `send_notification`. -/
def HardStateNotificationCheck (c : Checkable) : Bool :=
  if !c.reachable || c.inDowntime || c.acknowledged || c.flapping then
    false
  else
    let send1 :=
      (c.lastStateType == StateType.soft) ||
        (c.lastStateType == StateType.hard && c.lastStateRaw != ServiceOK &&
          c.stateRaw == ServiceOK)
    let send2 := send1 || c.volatileFlag
    let send3 :=
      if c.lastStateRaw == ServiceOK && c.lastStateType == StateType.soft then
        false
      else send2
    let send4 :=
      if c.volatileFlag && c.lastStateRaw == ServiceOK && c.stateRaw == ServiceOK
      then false
      else send3
    send4

/-- A `BeginExecuteNotification(type, cr, force, reminder)` call made by a
handler (the check-result argument is opaque to the scheduler and not
tracked). -/
structure ExecuteCall where
  notification : NotificationId
  ntype : NotificationType
  force : Bool
  reminder : Bool
deriving DecidableEq

/-- The scheduler-owned mutable state: `m_IdleNotifications`,
`m_PendingNotifications`, and the `m_Stopped` flag, all guarded by
`m_Mutex`. -/
structure SchedulerState where
  idle : List NotificationScheduleInfo
  pending : List NotificationScheduleInfo
  stopped : Bool
deriving DecidableEq

/-- Modelled from the spec: the container type `NotificationSet` is declared in
`notificationcomponent.hpp`, which is not among the sources; the spec describes
both collections as identity-indexed, holding at most one entry per
notification identity, with ingestion insert "replacing any stale entry for
the same identity".  So `setInsert` drops any entry with the same `Object` and
adds the new snapshot. -/
def setInsert (nsi : NotificationScheduleInfo)
    (s : List NotificationScheduleInfo) : List NotificationScheduleInfo :=
  nsi :: s.filter (fun e => e.Object != nsi.Object)

/-- Removal by notification identity (`container.erase(notification)`). -/
def setErase (n : NotificationId) (s : List NotificationScheduleInfo) :
    List NotificationScheduleInfo :=
  s.filter (fun e => e.Object != n)

/-- Membership by notification identity (`find(notification) != end()`). -/
def memId (n : NotificationId) (s : List NotificationScheduleInfo) : Bool :=
  s.any (fun e => e.Object == n)

/-- The entries of the collection carrying a given identity. -/
def entriesFor (n : NotificationId) (s : List NotificationScheduleInfo) :
    List NotificationScheduleInfo :=
  s.filter (fun e => e.Object == n)

/-- The per-notification loop of the ingestion handlers, restricted to its
effect on the Idle set: insert `GetNotificationScheduleInfo(notification)` for
every notification of the checkable, in iteration order. -/
def admitAll (env : Env) (ns : List NotificationId)
    (idle : List NotificationScheduleInfo) : List NotificationScheduleInfo :=
  ns.foldl (fun acc n => setInsert (GetNotificationScheduleInfo env n) acc) idle

/-- `NotificationComponent::StateChangeHandler` (lines 83-117).  Returns the
new scheduler state and the `BeginExecuteNotification` calls made.  Structure
of the source: early return when `HardStateNotificationCheck` is false; early
return when the state type is not hard; compute
`ntype = (cr->GetState() == 0 ? NotificationRecovery : NotificationProblem)`;
for each notification of the checkable execute it, and (only when `ntype` is
not Recovery) insert its schedule snapshot into Idle and signal the
condition.  The two values of `ntype` are written as the two branches of the
`crState == 0` test. -/
def StateChangeHandler (env : Env) (c : Checkable) (crState : Nat)
    (t : StateType) (s : SchedulerState) : SchedulerState × List ExecuteCall :=
  if !HardStateNotificationCheck c then (s, [])
  else if t != StateType.hard then (s, [])
  else if crState == 0 then
    (s, c.notifications.map fun n =>
      (⟨n, NotificationType.Recovery, false, false⟩ : ExecuteCall))
  else
    (⟨admitAll env c.notifications s.idle, s.pending, s.stopped⟩,
      c.notifications.map fun n =>
        (⟨n, NotificationType.Problem, false, false⟩ : ExecuteCall))

/-- `NotificationComponent::FlappingChangedHandler` (lines 119-137):
`ntype = IsFlapping() ? FlappingStart : FlappingEnd`; for each notification
execute it, and (only when `ntype` is not FlappingEnd) insert its schedule
snapshot into Idle and signal the condition — written as the two branches of
the `IsFlapping()` test. -/
def FlappingChangedHandler (env : Env) (c : Checkable) (s : SchedulerState) :
    SchedulerState × List ExecuteCall :=
  if c.flapping then
    (⟨admitAll env c.notifications s.idle, s.pending, s.stopped⟩,
      c.notifications.map fun n =>
        (⟨n, NotificationType.FlappingStart, false, false⟩ : ExecuteCall))
  else
    (s, c.notifications.map fun n =>
      (⟨n, NotificationType.FlappingEnd, false, false⟩ : ExecuteCall))

/-- The first entry of minimal `NextMessage`: what `boost::get<1>(...)`'s
`begin()` yields on the due-time-ordered index of the Idle set. -/
def minByNext : List NotificationScheduleInfo →
    Option NotificationScheduleInfo
  | [] => none
  | e :: es =>
    match minByNext es with
    | none => some e
    | some m => if e.NextMessage ≤ m.NextMessage then some e else some m

/-- Outcome of one pass of the body of the scheduler loop. -/
inductive LoopResult where
  | waitEmpty
  | exitLoop
  | waitTimed (wait : Int)
  | promoted (s : SchedulerState) (dispatched : NotificationId)
deriving DecidableEq

/-- One iteration of the `for (;;)` body of
`NotificationComponent::NotificationThreadProc` (lines 146-187), under the
mutex.  `while (idx.begin() == idx.end() && !m_Stopped)` waits; then
`if (m_Stopped) break`.  Otherwise the loop reads the minimum-`NextMessage`
entry `nsi`, computes `wait = nsi.NextMessage - Utility::GetTime()`, and if
`wait > 0` does a timed wait and re-loops.  Otherwise it erases the entry's
notification from Idle, re-snapshots
`nsi = GetNotificationScheduleInfo(notification)`, inserts that fresh snapshot
into Pending, and (with the mutex released) queues
`SendMessageHelper(notification, NotificationProblem, true)`. -/
def loopIteration (env : Env) (s : SchedulerState) : LoopResult :=
  if s.idle.isEmpty && !s.stopped then .waitEmpty
  else if s.stopped then .exitLoop
  else
    match minByNext s.idle with
    | none => .exitLoop
    | some nsi0 =>
      if nsi0.NextMessage - env.now > 0 then
        .waitTimed (nsi0.NextMessage - env.now)
      else
        .promoted
          ⟨setErase nsi0.Object s.idle,
            setInsert (GetNotificationScheduleInfo env nsi0.Object) s.pending,
            s.stopped⟩
          nsi0.Object

/-- `NotificationComponent::SendMessageHelper` (lines 234-250): it first calls
`BeginExecuteNotification(type, ..., false, reminder)` unconditionally, then
takes the mutex and looks the notification up in Pending; only if found does
it erase it, re-admit it to Idle when `notification->IsActive()`, and signal
the condition.  Note the body never reads `m_Stopped`. -/
def SendMessageHelper (env : Env) (n : NotificationId)
    (t : NotificationType) (reminder : Bool) (s : SchedulerState) :
    SchedulerState × List ExecuteCall :=
  if memId n s.pending then
    if (env.notifications n).active then
      (⟨setInsert (GetNotificationScheduleInfo env n) s.idle,
          setErase n s.pending, s.stopped⟩,
        [(⟨n, t, false, reminder⟩ : ExecuteCall)])
    else
      (⟨s.idle, setErase n s.pending, s.stopped⟩,
        [(⟨n, t, false, reminder⟩ : ExecuteCall)])
  else (s, [(⟨n, t, false, reminder⟩ : ExecuteCall)])

/-- `NotificationComponent::Stop` (lines 30-38): the body is
`m_Thread.join();` followed by a log line and the base-class `Stop`.  It
writes none of `m_Stopped`, `m_CV`, `m_IdleNotifications`,
`m_PendingNotifications`, so on the scheduler state it is the identity — in
particular it never sets the shutdown flag the loop's exit path tests. -/
def Stop (s : SchedulerState) : SchedulerState := s

/-- Events that mutate the scheduler state: the two ingestion handlers, one
pass of the scheduler loop, and one dispatch completion. -/
inductive Event where
  | stateChange (c : Checkable) (crState : Nat) (t : StateType)
  | flappingChanged (c : Checkable)
  | loopStep
  | sendComplete (n : NotificationId) (t : NotificationType) (reminder : Bool)

/-- Applies one event to the scheduler state under a given environment.  A
loop pass changes the state only when it promotes an entry. -/
def applyEvent (env : Env) (e : Event) (s : SchedulerState) : SchedulerState :=
  match e with
  | .stateChange c crState t => (StateChangeHandler env c crState t s).1
  | .flappingChanged c => (FlappingChangedHandler env c s).1
  | .loopStep =>
    match loopIteration env s with
    | .promoted s' _ => s'
    | _ => s
  | .sendComplete n t r => (SendMessageHelper env n t r s).1

/-- The component starts with both collections empty and the stop flag
clear. -/
def initState : SchedulerState := ⟨[], [], false⟩

/-- Reachability of a scheduler state under any sequence of events, where the
external environment may differ at every step. -/
inductive Reaches : SchedulerState → Prop where
  | init : Reaches initState
  | step (env : Env) (e : Event) {s : SchedulerState} :
      Reaches s → Reaches (applyEvent env e s)

/-! ### Helper lemmas -/

/-- The identities of a collection are pairwise distinct. -/
def idsNodup (l : List NotificationScheduleInfo) : Prop :=
  (l.map NotificationScheduleInfo.Object).Nodup

theorem idsNodup_setInsert (e : NotificationScheduleInfo)
    {l : List NotificationScheduleInfo} (h : idsNodup l) :
    idsNodup (setInsert e l) := by
  unfold idsNodup setInsert
  rw [List.map_cons, List.nodup_cons]
  refine ⟨?_, h.sublist ((List.filter_sublist l).map _)⟩
  intro hmem
  rcases List.mem_map.mp hmem with ⟨x, hx, hobj⟩
  have hkeep := List.of_mem_filter hx
  simp only [bne_iff_ne, ne_eq, decide_eq_true_eq] at hkeep
  exact hkeep hobj

theorem idsNodup_setErase (n : NotificationId)
    {l : List NotificationScheduleInfo} (h : idsNodup l) :
    idsNodup (setErase n l) :=
  h.sublist ((List.filter_sublist l).map _)

theorem idsNodup_admitAll (env : Env) (ns : List NotificationId)
    {init : List NotificationScheduleInfo} (h : idsNodup init) :
    idsNodup (admitAll env ns init) := by
  induction ns generalizing init with
  | nil => exact h
  | cons m tl ih => exact ih (idsNodup_setInsert _ h)

theorem minByNext_eq_none :
    ∀ {l : List NotificationScheduleInfo}, minByNext l = none → l = [] := by
  intro l h
  cases l with
  | nil => rfl
  | cons e es =>
    cases hes : minByNext es with
    | none => simp [minByNext, hes] at h
    | some m' =>
      simp only [minByNext, hes] at h
      split at h <;> simp at h

theorem minByNext_mem :
    ∀ {l : List NotificationScheduleInfo} {m : NotificationScheduleInfo},
      minByNext l = some m → m ∈ l := by
  intro l
  induction l with
  | nil => intro m h; simp [minByNext] at h
  | cons e es ih =>
    intro m h
    cases hes : minByNext es with
    | none =>
      simp only [minByNext, hes] at h
      cases h
      exact List.mem_cons_self _ _
    | some m' =>
      simp only [minByNext, hes] at h
      split at h
      · cases h; exact List.mem_cons_self _ _
      · cases h; exact List.mem_cons_of_mem _ (ih hes)

theorem minByNext_le :
    ∀ {l : List NotificationScheduleInfo} {m : NotificationScheduleInfo},
      minByNext l = some m → ∀ e ∈ l, m.NextMessage ≤ e.NextMessage := by
  intro l
  induction l with
  | nil => intro m h; simp [minByNext] at h
  | cons e es ih =>
    intro m h
    cases hes : minByNext es with
    | none =>
      simp only [minByNext, hes] at h
      cases h
      intro x hx
      rcases List.mem_cons.mp hx with hx | hx
      · rw [hx]
      · rw [minByNext_eq_none hes] at hx; cases hx
    | some m' =>
      simp only [minByNext, hes] at h
      split at h
      next hle =>
        cases h
        intro x hx
        rcases List.mem_cons.mp hx with hx | hx
        · rw [hx]
        · exact le_trans hle (ih hes x hx)
      next hgt =>
        cases h
        intro x hx
        rcases List.mem_cons.mp hx with hx | hx
        · rw [hx]; omega
        · exact ih hes x hx

theorem entriesFor_setInsert_eq {e : NotificationScheduleInfo}
    {n : NotificationId} (h : e.Object = n)
    (l : List NotificationScheduleInfo) :
    entriesFor n (setInsert e l) = [e] := by
  subst h
  unfold entriesFor setInsert
  rw [List.filter_cons_of_pos (by simp)]
  have : ∀ m : List NotificationScheduleInfo,
      List.filter (fun x => x.Object == e.Object)
        (List.filter (fun x => x.Object != e.Object) m) = [] := by
    intro m
    induction m with
    | nil => rfl
    | cons a tl ih =>
      by_cases ha : a.Object = e.Object
      · rw [List.filter_cons_of_neg (by simp [ha])]; exact ih
      · rw [List.filter_cons_of_pos (by simp [ha]),
          List.filter_cons_of_neg (by simp [ha])]
        exact ih
  rw [this]

theorem entriesFor_setInsert_ne {e : NotificationScheduleInfo}
    {n : NotificationId} (h : e.Object ≠ n)
    (l : List NotificationScheduleInfo) :
    entriesFor n (setInsert e l) = entriesFor n l := by
  unfold entriesFor setInsert
  rw [List.filter_cons_of_neg (by simp [h])]
  induction l with
  | nil => rfl
  | cons a tl ih =>
    by_cases ha : a.Object = e.Object
    · rw [List.filter_cons_of_neg (by simp [ha]),
        List.filter_cons_of_neg (by simp [ha]; exact h)]
      exact ih
    · rw [List.filter_cons_of_pos (by simp [ha])]
      by_cases hn : a.Object = n
      · rw [List.filter_cons_of_pos (by simp [hn]),
          List.filter_cons_of_pos (by simp [hn]), ih]
      · rw [List.filter_cons_of_neg (by simp [hn]),
          List.filter_cons_of_neg (by simp [hn]), ih]

theorem entriesFor_admitAll_of_not_mem (env : Env) {n : NotificationId} :
    ∀ (ns : List NotificationId), n ∉ ns →
      ∀ init, entriesFor n (admitAll env ns init) = entriesFor n init := by
  intro ns
  induction ns with
  | nil => intro _ init; rfl
  | cons m tl ih =>
    intro hnot init
    have hmn : m ≠ n := fun hmn => hnot (hmn ▸ List.mem_cons_self _ _)
    have hnot' : n ∉ tl := fun hmem => hnot (List.mem_cons_of_mem _ hmem)
    show entriesFor n
        (admitAll env tl (setInsert (GetNotificationScheduleInfo env m) init)) =
      entriesFor n init
    rw [ih hnot', entriesFor_setInsert_ne hmn]

theorem entriesFor_admitAll_of_mem (env : Env) {n : NotificationId} :
    ∀ (ns : List NotificationId), n ∈ ns →
      ∀ init, entriesFor n (admitAll env ns init) =
        [GetNotificationScheduleInfo env n] := by
  intro ns
  induction ns with
  | nil => intro h; cases h
  | cons m tl ih =>
    intro hmem init
    show entriesFor n
        (admitAll env tl (setInsert (GetNotificationScheduleInfo env m) init)) =
      [GetNotificationScheduleInfo env n]
    by_cases htl : n ∈ tl
    · exact ih htl _
    · have hmn : m = n := by
        rcases List.mem_cons.mp hmem with h | h
        · exact h.symm
        · exact absurd h htl
      subst hmn
      rw [entriesFor_admitAll_of_not_mem env tl htl]
      exact entriesFor_setInsert_eq rfl init

/-- The length of a collection strictly drops when an identity it contains is
erased. -/
theorem length_setErase_lt {n : NotificationId}
    {l : List NotificationScheduleInfo} (h : memId n l = true) :
    (setErase n l).length < l.length := by
  unfold memId at h
  rcases List.any_eq_true.mp h with ⟨e, hmem, he⟩
  unfold setErase
  refine List.length_filter_lt_length_iff_exists.mpr ⟨e, hmem, ?_⟩
  simp only [beq_iff_eq] at he
  simp [he]

/-- Characterization of the promotion branch of the scheduler loop: when one
pass promotes, the stop flag was clear, the promoted notification was the
minimum-`NextMessage` entry of Idle, that entry was due, and the new state is
exactly "erase it from Idle, insert the fresh snapshot into Pending". -/
theorem loopIteration_promoted {env : Env} {s s' : SchedulerState}
    {d : NotificationId} (h : loopIteration env s = .promoted s' d) :
    s.stopped = false ∧
    ∃ nsi0, minByNext s.idle = some nsi0 ∧ d = nsi0.Object ∧
      nsi0.NextMessage ≤ env.now ∧
      s' = ⟨setErase nsi0.Object s.idle,
            setInsert (GetNotificationScheduleInfo env nsi0.Object) s.pending,
            s.stopped⟩ := by
  unfold loopIteration at h
  split at h
  · cases h
  · split at h
    · cases h
    next hstop =>
      split at h
      · cases h
      next nsi0 hmin =>
        split at h
        · cases h
        next hw =>
          cases h
          refine ⟨by simpa using hstop, nsi0, hmin, rfl, by omega, rfl⟩

/-- Every single event preserves uniqueness of identities within each of the
two collections. -/
theorem step_preserves_idsNodup (env : Env) (e : Event) (s : SchedulerState)
    (hi : idsNodup s.idle) (hp : idsNodup s.pending) :
    idsNodup (applyEvent env e s).idle ∧
    idsNodup (applyEvent env e s).pending := by
  cases e with
  | stateChange c crState t =>
    show idsNodup (StateChangeHandler env c crState t s).1.idle ∧
      idsNodup (StateChangeHandler env c crState t s).1.pending
    unfold StateChangeHandler
    split
    · exact ⟨hi, hp⟩
    split
    · exact ⟨hi, hp⟩
    split
    · exact ⟨hi, hp⟩
    · exact ⟨idsNodup_admitAll env c.notifications hi, hp⟩
  | flappingChanged c =>
    show idsNodup (FlappingChangedHandler env c s).1.idle ∧
      idsNodup (FlappingChangedHandler env c s).1.pending
    unfold FlappingChangedHandler
    split
    · exact ⟨idsNodup_admitAll env c.notifications hi, hp⟩
    · exact ⟨hi, hp⟩
  | loopStep =>
    show idsNodup (match loopIteration env s with
        | LoopResult.promoted s' _ => s'
        | _ => s).idle ∧
      idsNodup (match loopIteration env s with
        | LoopResult.promoted s' _ => s'
        | _ => s).pending
    cases hlr : loopIteration env s with
    | promoted s' d =>
      obtain ⟨-, nsi0, -, -, -, hs'⟩ := loopIteration_promoted hlr
      subst hs'
      exact ⟨idsNodup_setErase _ hi, idsNodup_setInsert _ hp⟩
    | waitEmpty => exact ⟨hi, hp⟩
    | exitLoop => exact ⟨hi, hp⟩
    | waitTimed w => exact ⟨hi, hp⟩
  | sendComplete n t r =>
    show idsNodup (SendMessageHelper env n t r s).1.idle ∧
      idsNodup (SendMessageHelper env n t r s).1.pending
    unfold SendMessageHelper
    split
    · split
      · exact ⟨idsNodup_setInsert _ hi, idsNodup_setErase _ hp⟩
      · exact ⟨hi, idsNodup_setErase _ hp⟩
    · exact ⟨hi, hp⟩

/-! ### Claims -/

/-- C1 (counterexample): Invariant I1 fails.  The state with identity 0 both
in Idle (entry `⟨0, 0⟩`) and in Pending (entry `⟨0, 100⟩`) is reachable:
a hard state change admits notification 0 into Idle, the scheduler loop
promotes it into Pending, and a second hard state change re-inserts it into
Idle while the dispatch is still in flight — `StateChangeHandler` never
checks Pending membership. -/
theorem idle_pending_overlap_reachable :
    Reaches ⟨[⟨0, 0⟩], [⟨0, 100⟩], false⟩ ∧
    memId 0 (⟨[⟨0, 0⟩], [⟨0, 100⟩], false⟩ : SchedulerState).idle = true ∧
    memId 0 (⟨[⟨0, 0⟩], [⟨0, 100⟩], false⟩ : SchedulerState).pending = true := by
  refine ⟨?_, by decide, by decide⟩
  have h1 := Reaches.step (⟨fun _ => ⟨0, true⟩, 0⟩ : Env)
    (Event.stateChange ⟨true, false, false, false, false, 2, 2, .soft, [0]⟩
      2 .hard) Reaches.init
  have h2 := Reaches.step (⟨fun _ => ⟨100, true⟩, 0⟩ : Env) Event.loopStep h1
  have h3 := Reaches.step (⟨fun _ => ⟨0, true⟩, 0⟩ : Env)
    (Event.stateChange ⟨true, false, false, false, false, 2, 2, .soft, [0]⟩
      2 .hard) h2
  have he : applyEvent (⟨fun _ => ⟨0, true⟩, 0⟩ : Env)
      (Event.stateChange ⟨true, false, false, false, false, 2, 2, .soft, [0]⟩
        2 .hard)
      (applyEvent (⟨fun _ => ⟨100, true⟩, 0⟩ : Env) Event.loopStep
        (applyEvent (⟨fun _ => ⟨0, true⟩, 0⟩ : Env)
          (Event.stateChange
            ⟨true, false, false, false, false, 2, 2, .soft, [0]⟩ 2 .hard)
          initState)) = ⟨[⟨0, 0⟩], [⟨0, 100⟩], false⟩ := by decide
  exact he ▸ h3

/-- C1 (amended): within each single collection, identities never repeat: for
every reachable scheduler state, the Idle entries carry pairwise distinct
notification identities, and so do the Pending entries.  (The cross-collection
half of Invariant I1 is refuted by the counterexample.) -/
theorem reachable_ids_unique_within_collections (s : SchedulerState)
    (h : Reaches s) : idsNodup s.idle ∧ idsNodup s.pending := by
  induction h with
  | init => exact ⟨List.nodup_nil, List.nodup_nil⟩
  | step env e hr ih => exact step_preserves_idsNodup env e _ ih.1 ih.2

theorem reachable_ids_unique_within_collections_witness :
    idsNodup initState.idle ∧ idsNodup initState.pending :=
  reachable_ids_unique_within_collections initState Reaches.init

/-- C2: the claim says `Stop` sets the shutdown flag and signals the wait
condition so the loop exits.  The code's `Stop` (lines 30-38) only joins the
thread: it writes neither `m_Stopped` nor `m_CV`, so the scheduler state is
untouched, and after `Stop` the loop still waits on an empty Idle set
(instead of exiting) and still promotes a due entry of a non-empty Idle set —
hence the join can never complete. -/
theorem stop_never_signals_shutdown :
    Stop ⟨[], [], false⟩ = ⟨[], [], false⟩ ∧
    loopIteration (⟨fun _ => ⟨0, true⟩, 0⟩ : Env) (Stop ⟨[], [], false⟩) =
      LoopResult.waitEmpty ∧
    loopIteration (⟨fun _ => ⟨0, true⟩, 0⟩ : Env)
        (Stop ⟨[⟨0, 0⟩], [], false⟩) =
      LoopResult.promoted ⟨[], [⟨0, 0⟩], false⟩ 0 := by
  exact ⟨rfl, by decide, by decide⟩

/-- C3: the claim (and the code's own comment at line 220, "Don't send
notifications for SOFT-OK -> HARD-OK") exempts only soft-OK→hard-OK from the
soft→hard rule.  The code's suppression tests only
`GetLastStateRaw() == ServiceOK && GetLastStateType() == StateTypeSoft`,
ignoring the current raw state: for a reachable, un-acknowledged, non-flapping,
non-volatile checkable going soft-OK→hard-CRITICAL (lastRaw = OK, raw = 2)
the predicate returns false where the claim requires true. -/
theorem soft_ok_to_hard_problem_suppressed :
    HardStateNotificationCheck
      ⟨true, false, false, false, false, 2, ServiceOK, .soft, []⟩ = false := by
  decide

/-- C4: the claim says a volatile checkable in a hard state always notifies
except on OK→OK.  For a volatile checkable with lastStateType = soft,
lastRaw = OK and current raw = CRITICAL (not OK→OK), the code still returns
false: the same suppression as in C3 (lines 219-223) fires on
`lastRaw == OK && lastStateType == soft` and overrides the volatility rule,
contradicting the comment's stated soft-OK→hard-OK intent. -/
theorem volatile_soft_ok_to_hard_problem_suppressed :
    HardStateNotificationCheck
      ⟨true, false, false, false, true, 2, ServiceOK, .soft, []⟩ = false := by
  decide

/-- C5 (counterexample): the `dueAt` recorded in the Pending entry need not
satisfy `dueAt <= now`.  The loop checks due-ness against the Idle snapshot
(`NextMessage = 5 <= now = 10`) but then re-snapshots the notification
(line 171) before inserting into Pending, so the recorded `dueAt` is the
notification's current `GetNextNotification() = 20 > now`.  The pre-state is
reachable (one hard state change with next-due time 5). -/
theorem promoted_pending_dueAt_not_past :
    Reaches ⟨[⟨0, 5⟩], [], false⟩ ∧
    loopIteration (⟨fun _ => ⟨20, true⟩, 10⟩ : Env) ⟨[⟨0, 5⟩], [], false⟩ =
      LoopResult.promoted ⟨[], [⟨0, 20⟩], false⟩ 0 ∧
    ¬((20 : Int) ≤ (⟨fun _ => ⟨20, true⟩, 10⟩ : Env).now) := by
  refine ⟨?_, by decide, by decide⟩
  have h1 := Reaches.step (⟨fun _ => ⟨5, true⟩, 0⟩ : Env)
    (Event.stateChange ⟨true, false, false, false, false, 2, 2, .soft, [0]⟩
      2 .hard) Reaches.init
  have he : applyEvent (⟨fun _ => ⟨5, true⟩, 0⟩ : Env)
      (Event.stateChange ⟨true, false, false, false, false, 2, 2, .soft, [0]⟩
        2 .hard) initState = ⟨[⟨0, 5⟩], [], false⟩ := by decide
  exact he ▸ h1

/-- C5 (amended): whenever the scheduler loop promotes, the promoted
notification's Idle entry was a minimum-`NextMessage` entry of Idle and was
actually due (its snapshotted `NextMessage <= now`); the entry inserted into
Pending, however, carries the freshly re-snapshotted
`GetNotificationScheduleInfo` of the notification, not the due snapshot. -/
theorem promotion_takes_due_minimum (env : Env) (s s' : SchedulerState)
    (d : NotificationId) (h : loopIteration env s = LoopResult.promoted s' d) :
    ∃ e ∈ s.idle, e.Object = d ∧ e.NextMessage ≤ env.now ∧
      (∀ x ∈ s.idle, e.NextMessage ≤ x.NextMessage) ∧
      s'.idle = setErase d s.idle ∧
      s'.pending = setInsert (GetNotificationScheduleInfo env d) s.pending := by
  obtain ⟨-, nsi0, hmin, hd, hdue, hs'⟩ := loopIteration_promoted h
  subst hd
  subst hs'
  exact ⟨nsi0, minByNext_mem hmin, rfl, hdue, minByNext_le hmin, rfl, rfl⟩

theorem promotion_takes_due_minimum_witness :
    ∃ e ∈ (⟨[⟨0, 0⟩], [], false⟩ : SchedulerState).idle, e.Object = 0 ∧
      e.NextMessage ≤ (⟨fun _ => ⟨3, true⟩, 5⟩ : Env).now ∧
      (∀ x ∈ (⟨[⟨0, 0⟩], [], false⟩ : SchedulerState).idle,
        e.NextMessage ≤ x.NextMessage) ∧
      (⟨[], [⟨0, 3⟩], false⟩ : SchedulerState).idle =
        setErase 0 (⟨[⟨0, 0⟩], [], false⟩ : SchedulerState).idle ∧
      (⟨[], [⟨0, 3⟩], false⟩ : SchedulerState).pending =
        setInsert
          (GetNotificationScheduleInfo (⟨fun _ => ⟨3, true⟩, 5⟩ : Env) 0)
          (⟨[⟨0, 0⟩], [], false⟩ : SchedulerState).pending :=
  promotion_takes_due_minimum (⟨fun _ => ⟨3, true⟩, 5⟩ : Env)
    ⟨[⟨0, 0⟩], [], false⟩ ⟨[], [⟨0, 3⟩], false⟩ 0 (by decide)

/-- C6 (counterexample): with the shutdown flag set, a dispatch completion for
a notification still in Pending is not a no-op: `SendMessageHelper` never
reads `m_Stopped`, so it removes the entry from Pending and re-admits the
still-active notification into Idle — a new Idle entry is created after
shutdown and the ScheduleSet changes. -/
theorem post_shutdown_completion_readmits :
    (SendMessageHelper (⟨fun _ => ⟨7, true⟩, 0⟩ : Env) 0
        NotificationType.Problem true ⟨[], [⟨0, 5⟩], true⟩).1 =
      ⟨[⟨0, 7⟩], [], true⟩ := by
  decide

/-- C6 (amended): `SendMessageHelper` contains no shutdown check; after
shutdown it behaves exactly as before, leaving the scheduler state unchanged
precisely when the completing notification is not found in Pending (when it is
found, it is removed and — if active — re-admitted to Idle). -/
theorem post_shutdown_completion_noop_iff_absent (env : Env)
    (n : NotificationId) (t : NotificationType) (r : Bool)
    (s : SchedulerState) (_hstop : s.stopped = true) :
    ((SendMessageHelper env n t r s).1 = s ↔ memId n s.pending = false) := by
  constructor
  · intro heq
    by_contra hmem
    have hmem' : memId n s.pending = true := by
      cases hb : memId n s.pending
      · exact absurd hb hmem
      · rfl
    have hlt := length_setErase_lt hmem'
    unfold SendMessageHelper at heq
    rw [if_pos hmem'] at heq
    by_cases ha : (env.notifications n).active = true
    · rw [if_pos ha] at heq
      have hpend := congrArg SchedulerState.pending heq
      simp only at hpend
      rw [hpend] at hlt
      exact lt_irrefl _ hlt
    · rw [if_neg ha] at heq
      have hpend := congrArg SchedulerState.pending heq
      simp only at hpend
      rw [hpend] at hlt
      exact lt_irrefl _ hlt
  · intro habs
    unfold SendMessageHelper
    rw [if_neg (by simp [habs])]

theorem post_shutdown_completion_noop_iff_absent_witness :
    (SendMessageHelper (⟨fun _ => ⟨7, true⟩, 0⟩ : Env) 0
        NotificationType.Problem true ⟨[], [], true⟩).1 =
      ⟨[], [], true⟩ ↔
    memId 0 (⟨[], [], true⟩ : SchedulerState).pending = false :=
  post_shutdown_completion_noop_iff_absent (⟨fun _ => ⟨7, true⟩, 0⟩ : Env) 0
    NotificationType.Problem true ⟨[], [], true⟩ rfl

/-- C7: for every input to the decision predicate, if both the previous and
the current raw state are OK then `HardStateNotificationCheck` returns false,
regardless of reachability, downtime, acknowledgement, flapping, volatility
and the previous state type (final OK-to-OK override). -/
theorem ok_to_ok_never_notifies (r d a f v : Bool) (lst : StateType)
    (ns : List NotificationId) :
    HardStateNotificationCheck
      ⟨r, d, a, f, v, ServiceOK, ServiceOK, lst, ns⟩ = false := by
  cases r <;> cases d <;> cases a <;> cases f <;> cases v <;> cases lst <;> rfl

/-- C8: a hard state change whose check-result state is OK is classified
`NotificationRecovery`; the handler then fires the immediate execute for each
attached notification but leaves the scheduler state — in particular the Idle
collection — unchanged: no Idle entry is created or refreshed. -/
theorem recovery_leaves_idle_unchanged (env : Env) (c : Checkable)
    (s : SchedulerState) (hchk : HardStateNotificationCheck c = true) :
    (StateChangeHandler env c 0 .hard s).1 = s ∧
    (StateChangeHandler env c 0 .hard s).2 =
      c.notifications.map fun n =>
        (⟨n, NotificationType.Recovery, false, false⟩ : ExecuteCall) := by
  unfold StateChangeHandler
  rw [if_neg (by simp [hchk]), if_neg (by decide), if_pos (by decide)]
  exact ⟨rfl, rfl⟩

theorem recovery_leaves_idle_unchanged_witness :
    (StateChangeHandler (⟨fun _ => ⟨0, true⟩, 0⟩ : Env)
        ⟨true, false, false, false, false, 0, 2, .hard, [0, 1]⟩ 0 .hard
        ⟨[⟨5, 9⟩], [], false⟩).1 = ⟨[⟨5, 9⟩], [], false⟩ ∧
    (StateChangeHandler (⟨fun _ => ⟨0, true⟩, 0⟩ : Env)
        ⟨true, false, false, false, false, 0, 2, .hard, [0, 1]⟩ 0 .hard
        ⟨[⟨5, 9⟩], [], false⟩).2 =
      [⟨0, NotificationType.Recovery, false, false⟩,
       ⟨1, NotificationType.Recovery, false, false⟩] :=
  recovery_leaves_idle_unchanged (⟨fun _ => ⟨0, true⟩, 0⟩ : Env)
    ⟨true, false, false, false, false, 0, 2, .hard, [0, 1]⟩
    ⟨[⟨5, 9⟩], [], false⟩ (by decide)

/-- C9: when `StateChangeHandler` (non-Recovery, hard) or
`FlappingChangedHandler` (flapping start) admits a notification into Idle,
the Idle set afterwards holds exactly one entry for that identity, and that
entry is the fresh snapshot whose `NextMessage` is the notification's current
next-notification time — any stale entry for the same identity is replaced. -/
theorem admission_inserts_fresh_snapshot (env : Env) (c : Checkable)
    (crState : Nat) (s : SchedulerState) (n : NotificationId)
    (hmem : n ∈ c.notifications) :
    (HardStateNotificationCheck c = true → crState ≠ 0 →
      entriesFor n (StateChangeHandler env c crState .hard s).1.idle =
        [GetNotificationScheduleInfo env n]) ∧
    (c.flapping = true →
      entriesFor n (FlappingChangedHandler env c s).1.idle =
        [GetNotificationScheduleInfo env n]) := by
  constructor
  · intro hchk hcr
    unfold StateChangeHandler
    rw [if_neg (by simp [hchk]), if_neg (by decide), if_neg (by simp [hcr])]
    exact entriesFor_admitAll_of_mem env c.notifications hmem s.idle
  · intro hfl
    unfold FlappingChangedHandler
    rw [if_pos hfl]
    exact entriesFor_admitAll_of_mem env c.notifications hmem s.idle

theorem admission_inserts_fresh_snapshot_witness :
    (HardStateNotificationCheck
        ⟨true, false, false, false, false, 2, 2, .soft, [0]⟩ = true →
      (2 : Nat) ≠ 0 →
      entriesFor 0 (StateChangeHandler (⟨fun _ => ⟨42, true⟩, 0⟩ : Env)
          ⟨true, false, false, false, false, 2, 2, .soft, [0]⟩ 2 .hard
          ⟨[⟨0, 11⟩], [], false⟩).1.idle =
        [GetNotificationScheduleInfo (⟨fun _ => ⟨42, true⟩, 0⟩ : Env) 0]) ∧
    ((⟨true, false, false, false, false, 2, 2, .soft, [0]⟩ :
        Checkable).flapping = true →
      entriesFor 0 (FlappingChangedHandler (⟨fun _ => ⟨42, true⟩, 0⟩ : Env)
          ⟨true, false, false, false, false, 2, 2, .soft, [0]⟩
          ⟨[⟨0, 11⟩], [], false⟩).1.idle =
        [GetNotificationScheduleInfo (⟨fun _ => ⟨42, true⟩, 0⟩ : Env) 0]) :=
  admission_inserts_fresh_snapshot (⟨fun _ => ⟨42, true⟩, 0⟩ : Env)
    ⟨true, false, false, false, false, 2, 2, .soft, [0]⟩ 2
    ⟨[⟨0, 11⟩], [], false⟩ 0 (by decide)

/-- C10: dispatch completion performs the reminder send (execute with type
Problem, reminder = true) unconditionally, before the Pending collection is
inspected — the send happens even when the notification is not in Pending or
no longer active; only the removal from Pending and the conditional
re-admission to Idle depend on Pending membership and activity. -/
theorem completion_sends_unconditionally (env : Env) (n : NotificationId)
    (s : SchedulerState) :
    (SendMessageHelper env n NotificationType.Problem true s).2 =
      [(⟨n, NotificationType.Problem, false, true⟩ : ExecuteCall)] ∧
    (memId n s.pending = false →
      (SendMessageHelper env n NotificationType.Problem true s).1 = s) ∧
    (memId n s.pending = true →
      (SendMessageHelper env n NotificationType.Problem true s).1.pending =
        setErase n s.pending ∧
      (SendMessageHelper env n NotificationType.Problem true s).1.idle =
        (if (env.notifications n).active = true then
          setInsert (GetNotificationScheduleInfo env n) s.idle
        else s.idle)) := by
  unfold SendMessageHelper
  by_cases h : memId n s.pending = true <;>
    by_cases ha : (env.notifications n).active = true <;>
      simp [h, ha]

theorem completion_sends_unconditionally_witness :
    (SendMessageHelper (⟨fun _ => ⟨3, true⟩, 0⟩ : Env) 0
        NotificationType.Problem true ⟨[], [], false⟩).2 =
      [(⟨0, NotificationType.Problem, false, true⟩ : ExecuteCall)] ∧
    (SendMessageHelper (⟨fun _ => ⟨3, true⟩, 0⟩ : Env) 0
        NotificationType.Problem true ⟨[], [], false⟩).1 =
      ⟨[], [], false⟩ :=
  ⟨(completion_sends_unconditionally (⟨fun _ => ⟨3, true⟩, 0⟩ : Env) 0
      ⟨[], [], false⟩).1,
   (completion_sends_unconditionally (⟨fun _ => ⟨3, true⟩, 0⟩ : Env) 0
      ⟨[], [], false⟩).2.1 rfl⟩

end NotificationComponent
